import Mathlib

/-!
# Verification of the Lab Notebook Worklog persistence and query layer

A shallow embedding of the SQLite-backed persistence layer of the
work/project lab-notebook application
(`streamlit_work_project_lab_notebook_app.py`), together with proofs
about its documented behaviour.

The database is modelled as in-memory lists of rows; SQL statements are
translated into the corresponding list operations:

* `TEXT` comparison is byte-wise (`memcmp`); on UTF-8 this coincides with
  codepoint-lexicographic order, modelled by `charsLe`.
* `LIKE` is modelled by `likeMatch` (ASCII-case-insensitive, `%`/`_`
  wildcards, no `ESCAPE` clause, matching the default behaviour of SQLite).
* `DATE(ts)` applied to an ISO-8601 timestamp string yields its first ten
  characters (`sqliteDate`).
* Auto-increment primary keys are modelled with explicit counters.
* Foreign-key enforcement (`PRAGMA foreign_keys = ON` in `get_conn`
  together with the schema of `init_db`) makes `insert_attachment`
  fallible, modelled with `Except`.
* Timestamps (`datetime.utcnow().isoformat()`, `ts.isoformat()`) enter the
  model as the ISO strings the code stores.
* The UI-side rendering of filesystem links (`human_path_link`, which
  inspects the filesystem) and the textual rendering of floating-point
  durations are abstracted as function parameters `pathLink` / `showDur`.
-/

namespace Worklog

/-- Byte-wise (codepoint-lexicographic) comparison of character lists;
models the `memcmp`-based `TEXT` ordering of SQLite on UTF-8 data. -/
def charsLe : List Char → List Char → Bool
  | [], _ => true
  | _ :: _, [] => false
  | a :: as, b :: bs =>
    if a.toNat < b.toNat then true
    else if b.toNat < a.toNat then false
    else charsLe as bs

/-- Ordering of `TEXT` values on strings, as used by `ORDER BY` and by
`>=` / `<=` in SQL. -/
def strLe (a b : String) : Bool := charsLe a.toList b.toList

/-- SQLite `DATE()` applied to an ISO-8601 timestamp string: the
`YYYY-MM-DD` date portion, i.e. the first ten characters.  This also
models `pd.to_datetime(ts).dt.date` on the same strings. -/
def sqliteDate (s : String) : String := s.take 10

/-- SQLite `LIKE` matching: first argument the pattern, second the
candidate text, both as character lists.  `%` matches any sequence, `_`
any single character, ordinary characters compare ASCII-case-insensitively
(the SQLite default, modelled with `Char.toLower`, which only folds ASCII). -/
def likeMatch : List Char → List Char → Bool
  | [], hs => hs.isEmpty
  | p :: ps, hs =>
    if p = '%' then
      hs.tails.any fun t => likeMatch ps t
    else
      match hs with
      | [] => false
      | h :: hs' => (p == '_' || p.toLower == h.toLower) && likeMatch ps hs'

/-- The pattern `f"%{t}%"` built by `query_entries` for text searches. -/
def likePattern (t : String) : List Char := '%' :: (t.toList ++ ['%'])

/-- String form of the match: `sqlLike hay pat` is `hay LIKE pat`. -/
def sqlLike (hay : String) (pat : List Char) : Bool := likeMatch pat hay.toList

/-- Bool-valued "is a prefix of" on character lists (exact equality). -/
def charsIsPrefix : List Char → List Char → Bool
  | [], _ => true
  | _ :: _, [] => false
  | a :: as, b :: bs => a == b && charsIsPrefix as bs

/-- Bool-valued "occurs as a contiguous infix of" on character lists. -/
def charsOccurs (needle : List Char) : List Char → Bool
  | [] => charsIsPrefix needle []
  | h :: t => charsIsPrefix needle (h :: t) || charsOccurs needle t

/-- Case-insensitive substring containment: the reading the spec gives of
the text filter ("case-insensitive substring match against title OR notes
OR path").  Stated from the words of the spec, to be compared with the
`LIKE`-based filter the code actually runs. -/
def containsCI (hay needle : String) : Bool :=
  charsOccurs (needle.toList.map Char.toLower) (hay.toList.map Char.toLower)

/-- A search string is wildcard-free when it uses no `LIKE`
metacharacter. -/
def noWildcards (s : String) : Bool :=
  s.toList.all fun c => !(c == '%') && !(c == '_')

/-! ## Data model

The three tables created by `init_db`, one structure per row shape.
`duration_hours REAL` is modelled with `ℚ` (the claims never exercise
float rounding); nullable columns are `Option`s. -/

/-- A row of the `projects` table. -/
structure ProjectRow where
  id : Nat
  name : String
  base_path : Option String
  created_at : String
deriving DecidableEq, Repr

/-- A row of the `entries` table. -/
structure EntryRow where
  id : Nat
  ts : String
  title : String
  project_id : Option Nat
  work_type : String
  tags : String
  path : String
  duration_hours : Option ℚ
  notes_md : String
  created_at : String
deriving DecidableEq, Repr

/-- A row of the `attachments` table. -/
structure AttachmentRow where
  id : Nat
  entry_id : Nat
  filename : String
  rel_path : String
  created_at : String
deriving DecidableEq, Repr

/-- The whole database file: the three tables plus the next value of each
`AUTOINCREMENT` primary-key counter (SQLite starts at 1). -/
structure DB where
  projects : List ProjectRow
  entries : List EntryRow
  attachments : List AttachmentRow
  nextProjectId : Nat := 1
  nextEntryId : Nat := 1
  nextAttachmentId : Nat := 1
deriving DecidableEq, Repr

/-- The empty database right after `init_db` on a fresh file. -/
def DB.empty : DB := { projects := [], entries := [], attachments := [] }

/-! ## Project repository -/

/-- Models `upsert_project(name, base_path)`: if a project named `name` exists,
`UPDATE projects SET base_path = ? WHERE name = ?`; otherwise
`INSERT INTO projects(name, base_path, created_at)`.  `now` is the
`datetime.utcnow().isoformat()` timestamp taken at the start of the
call. -/
def upsert_project (name : String) (base_path : Option String) (now : String) (db : DB) : DB :=
  if db.projects.any (fun p => p.name == name) then
    { db with projects :=
        db.projects.map fun p =>
          if p.name == name then { p with base_path := base_path } else p }
  else
    { db with
        projects := db.projects ++
          [{ id := db.nextProjectId, name := name, base_path := base_path, created_at := now }],
        nextProjectId := db.nextProjectId + 1 }

/-! ## Entry repository -/

/-- Models `insert_entry(ts, title, project_id, work_type, tags, path,
duration_hours, notes_md)`: appends one row to `entries` and returns
`cur.lastrowid` (the fresh auto-increment id).  `ts` is the
`ts.isoformat()` string actually bound into the SQL; `now` the
`created_at` timestamp. -/
def insert_entry (ts title : String) (project_id : Option Nat) (work_type tags path : String)
    (duration_hours : Option ℚ) (notes_md : String) (now : String) (db : DB) : Nat × DB :=
  let row : EntryRow :=
    { id := db.nextEntryId, ts := ts, title := title, project_id := project_id,
      work_type := work_type, tags := tags, path := path,
      duration_hours := duration_hours, notes_md := notes_md, created_at := now }
  (db.nextEntryId, { db with entries := db.entries ++ [row], nextEntryId := db.nextEntryId + 1 })

/-- The duration value `quick_capture` passes to `insert_entry`:
`float(duration) if duration else None` — Python truthiness maps a zero
duration to `None`. -/
def quick_capture_duration (duration : ℚ) : Option ℚ :=
  if duration = 0 then none else some duration

/-- The `WHERE` clause of `query_entries`, one conjunct per filter.
Mirrors the Python truthiness tests: a filter contributes a condition
only when its argument is "truthy" (`if start:`, `if project_ids:`,
`if text:`, `if tags_like:`), so an empty list or empty string behaves
like an absent filter. -/
def entry_matches (start end_ : Option String) (project_ids : Option (List Nat))
    (text tags_like : Option String) (e : EntryRow) : Bool :=
  (match start with
   | some s => strLe (sqliteDate s) (sqliteDate e.ts)
   | none => true) &&
  (match end_ with
   | some s => strLe (sqliteDate e.ts) (sqliteDate s)
   | none => true) &&
  (match project_ids with
   | some l =>
     if l.isEmpty then true
     else
       match e.project_id with
       | some pid => l.contains pid
       | none => false
   | none => true) &&
  (match text with
   | some t =>
     if t = "" then true
     else sqlLike e.title (likePattern t) || sqlLike e.notes_md (likePattern t) ||
       sqlLike e.path (likePattern t)
   | none => true) &&
  (match tags_like with
   | some t => if t = "" then true else sqlLike e.tags (likePattern t)
   | none => true)

/-- One row of the projection
`SELECT e.id, e.ts, e.title, IFNULL(p.name, '') AS project, e.work_type,
e.tags, e.path, e.duration_hours, e.notes_md`. -/
structure QueryRow where
  id : Nat
  ts : String
  title : String
  project : String
  work_type : String
  tags : String
  path : String
  duration_hours : Option ℚ
  notes_md : String
deriving DecidableEq, Repr

/-- Models `IFNULL(p.name, ...)` through
`LEFT JOIN projects p ON e.project_id = p.id`: the name of the matching
project, or the empty string when `project_id` is `NULL` or dangling.
(`projects.id` is the `INTEGER PRIMARY KEY`, so at most one row
matches.) -/
def project_name_of (db : DB) (pid : Option Nat) : String :=
  match pid with
  | none => ""
  | some i => ((db.projects.find? fun p => p.id == i).map fun p => p.name).getD ""

/-- The projection applied to one `entries` row. -/
def entry_row (db : DB) (e : EntryRow) : QueryRow :=
  { id := e.id, ts := e.ts, title := e.title, project := project_name_of db e.project_id,
    work_type := e.work_type, tags := e.tags, path := e.path,
    duration_hours := e.duration_hours, notes_md := e.notes_md }

/-- The comparison of `ORDER BY e.ts DESC`: `a` may come before `b` when
the timestamp of `a` is the later (byte-wise) one. -/
def tsDesc (a b : QueryRow) : Prop := strLe b.ts a.ts = true

instance : DecidableRel tsDesc := fun _ _ => instDecidableEqBool _ _

/-- Ascending exact-timestamp order on projected rows
(`g.sort_values("ts")`). -/
def tsAsc (a b : QueryRow) : Prop := strLe a.ts b.ts = true

instance : DecidableRel tsAsc := fun _ _ => instDecidableEqBool _ _

/-- Ascending order on `YYYY-MM-DD` date strings (`groupby(..., sort=True)`). -/
def dateAsc (a b : String) : Prop := strLe a b = true

instance : DecidableRel dateAsc := fun _ _ => instDecidableEqBool _ _

/-- Models `query_entries(start, end, project_ids, text, tags_like)`: filter,
left-join projection, order by timestamp descending. -/
def query_entries (start end_ : Option String) (project_ids : Option (List Nat))
    (text tags_like : Option String) (db : DB) : List QueryRow :=
  List.insertionSort tsDesc
    ((db.entries.filter (entry_matches start end_ project_ids text tags_like)).map
      (entry_row db))

/-! ## Attachment repository -/

/-- Models `insert_attachment(entry_id, filename, rel_path)`.  The function body
only runs an `INSERT`, but every connection enables
`PRAGMA foreign_keys = ON` and the schema declares
`FOREIGN KEY(entry_id) REFERENCES entries(id)`, so SQLite raises
`sqlite3.IntegrityError: FOREIGN KEY constraint failed` when `entry_id`
matches no entry; the `Except` models that. -/
def insert_attachment (entry_id : Nat) (filename rel_path now : String) (db : DB) :
    Except String DB :=
  if db.entries.any (fun e => e.id == entry_id) then
    .ok { db with
            attachments := db.attachments ++
              [{ id := db.nextAttachmentId, entry_id := entry_id, filename := filename,
                 rel_path := rel_path, created_at := now }],
            nextAttachmentId := db.nextAttachmentId + 1 }
  else
    .error "FOREIGN KEY constraint failed"

/-! ## Export formatter -/

/-- The distinct calendar dates of a row set, ascending: the group keys of
`df2.groupby("date", sort=True)`. -/
def markdown_date_keys (rows : List QueryRow) : List String :=
  List.insertionSort dateAsc ((rows.map fun r => sqliteDate r.ts).dedup)

/-- The date groups of `export_markdown`: for each date (ascending) the
rows of that date, sorted ascending by exact timestamp
(`g.sort_values("ts")`). -/
def markdown_groups (rows : List QueryRow) : List (String × List QueryRow) :=
  (markdown_date_keys rows).map fun d =>
    (d, List.insertionSort tsAsc (rows.filter fun r => sqliteDate r.ts == d))

/-- The lines `export_markdown` appends for one entry.  `pathLink`
abstracts `human_path_link` (it inspects the filesystem); `showDur` the
Python float formatting. -/
def render_entry (pathLink : String → String) (showDur : ℚ → String) (r : QueryRow) :
    List String :=
  let path_str := if r.path = "" then "" else pathLink r.path
  ["### " ++ r.title ++ "\n", "- **Time:** " ++ r.ts ++ "\n"] ++
  (if r.project = "" then [] else ["- **Project:** " ++ r.project ++ "\n"]) ++
  (if r.work_type = "" then [] else ["- **Type:** " ++ r.work_type ++ "\n"]) ++
  (if r.tags = "" then [] else ["- **Tags:** " ++ r.tags ++ "\n"]) ++
  (if path_str = "" then [] else ["- **Path:** " ++ path_str ++ "\n"]) ++
  (match r.duration_hours with
   | some q => ["- **Duration:** " ++ showDur q ++ " h\n"]
   | none => []) ++
  (if r.notes_md = "" then [] else ["\n" ++ r.notes_md ++ "\n"])

/-- Models `export_markdown(df)`: the placeholder document on an empty row set,
otherwise a header line followed by one `## date` section per calendar
date and the rendered entries, joined with `"\n".join(lines)`. -/
def export_markdown (pathLink : String → String) (showDur : ℚ → String)
    (rows : List QueryRow) : String :=
  if rows.isEmpty then "# Worklog\n\n_No entries in the selected range._\n"
  else
    String.intercalate "\n"
      (["# Worklog Export\n"] ++
        (markdown_groups rows).flatMap fun g =>
          ("\n## " ++ g.1 ++ "\n") :: g.2.flatMap (render_entry pathLink showDur))

/-- Minimal CSV quoting as used by `DataFrame.to_csv`: quote a field iff
it holds a comma, quote, CR or LF; double embedded quotes. -/
def csv_field (s : String) : String :=
  if s.toList.any (fun c => c == ',' || c == '"' || c == '\n' || c == '\r') then
    "\"" ++ String.mk (s.toList.flatMap fun c => if c == '"' then ['"', '"'] else [c]) ++ "\""
  else s

/-- One CSV line of the entries view export (the `notes_md` column is
dropped before `to_csv`); a null duration prints as the empty field. -/
def csv_row (showDur : ℚ → String) (r : QueryRow) : String :=
  String.intercalate ","
    [toString r.id, csv_field r.ts, csv_field r.title, csv_field r.project,
     csv_field r.work_type, csv_field r.tags, csv_field r.path,
     match r.duration_hours with
     | some q => csv_field (showDur q)
     | none => ""]

/-- The CSV bytes built in `entries_view`:
`df.drop(columns=["notes_md"]).to_csv(index=False).encode("utf-8") if not
df.empty else b""` — an empty row set yields the empty byte string, not a
header-only file. -/
def entries_csv (showDur : ℚ → String) (rows : List QueryRow) : String :=
  if rows.isEmpty then ""
  else
    String.intercalate "\n"
      (["id,ts,title,project,work_type,tags,path,duration_hours"] ++
        rows.map (csv_row showDur)) ++ "\n"

/-! ## Concrete example data (used to instantiate the theorems) -/

/-- The §8 example scenario: project "Atlas", one calibration entry
referencing it. -/
def atlasDB : DB :=
  (insert_entry "2025-10-10T09:30:00" "Ran calibration" (some 1) "Experiment" "calib,v2"
    "/home/u/atlas/run1" (some 2) "Passed" "2025-10-10T09:30:01"
    (upsert_project "Atlas" (some "/home/u/atlas") "2025-10-09T08:00:00" DB.empty)).2

/-- Two projected rows spanning two calendar days, most recent first (the
order `query_entries` would emit), for exercising the markdown
grouping. -/
def mdTwoDays : List QueryRow :=
  [{ id := 2, ts := "2024-01-02T10:00:00", title := "b", project := "", work_type := "Coding",
     tags := "", path := "", duration_hours := none, notes_md := "" },
   { id := 1, ts := "2024-01-01T09:00:00", title := "a", project := "", work_type := "Coding",
     tags := "", path := "", duration_hours := none, notes_md := "" }]

/-! ## Order lemmas for the sort relations -/

theorem charsLe_cons_iff {x y : Char} {xs ys : List Char} :
    charsLe (x :: xs) (y :: ys) = true ↔
      x.toNat < y.toNat ∨ (x.toNat = y.toNat ∧ charsLe xs ys = true) := by
  simp only [charsLe]
  by_cases h1 : x.toNat < y.toNat
  · simp [h1]
  · by_cases h2 : y.toNat < x.toNat
    · simp [h1, h2]
      omega
    · have h3 : x.toNat = y.toNat := by omega
      simp [h1, h2, h3]

theorem charsLe_total (a b : List Char) : charsLe a b = true ∨ charsLe b a = true := by
  induction a generalizing b with
  | nil => exact Or.inl rfl
  | cons x xs ih =>
    cases b with
    | nil => exact Or.inr rfl
    | cons y ys =>
      rcases Nat.lt_trichotomy x.toNat y.toNat with h | h | h
      · exact Or.inl (charsLe_cons_iff.2 (Or.inl h))
      · rcases ih ys with h' | h'
        · exact Or.inl (charsLe_cons_iff.2 (Or.inr ⟨h, h'⟩))
        · exact Or.inr (charsLe_cons_iff.2 (Or.inr ⟨h.symm, h'⟩))
      · exact Or.inr (charsLe_cons_iff.2 (Or.inl h))

theorem charsLe_trans {a b c : List Char} (h1 : charsLe a b = true) (h2 : charsLe b c = true) :
    charsLe a c = true := by
  induction a generalizing b c with
  | nil => rfl
  | cons x xs ih =>
    cases b with
    | nil => exact absurd h1 (by simp [charsLe])
    | cons y ys =>
      cases c with
      | nil => exact absurd h2 (by simp [charsLe])
      | cons z zs =>
        rcases charsLe_cons_iff.1 h1 with hxy | ⟨hxy, hxs⟩ <;>
          rcases charsLe_cons_iff.1 h2 with hyz | ⟨hyz, hys⟩
        · exact charsLe_cons_iff.2 (Or.inl (Nat.lt_trans hxy hyz))
        · exact charsLe_cons_iff.2 (Or.inl (hyz ▸ hxy))
        · exact charsLe_cons_iff.2 (Or.inl (hxy ▸ hyz))
        · exact charsLe_cons_iff.2 (Or.inr ⟨hxy.trans hyz, ih hxs hys⟩)

theorem strLe_total (a b : String) : strLe a b = true ∨ strLe b a = true :=
  charsLe_total a.toList b.toList

theorem strLe_trans {a b c : String} (h1 : strLe a b = true) (h2 : strLe b c = true) :
    strLe a c = true :=
  charsLe_trans h1 h2

instance : IsTotal QueryRow tsDesc := ⟨fun a b => strLe_total b.ts a.ts⟩

instance : IsTrans QueryRow tsDesc := ⟨fun _ _ _ h1 h2 => strLe_trans h2 h1⟩

instance : IsTotal QueryRow tsAsc := ⟨fun a b => strLe_total a.ts b.ts⟩

instance : IsTrans QueryRow tsAsc := ⟨fun _ _ _ h1 h2 => strLe_trans h1 h2⟩

instance : IsTotal String dateAsc := ⟨fun a b => strLe_total a b⟩

instance : IsTrans String dateAsc := ⟨fun _ _ _ h1 h2 => strLe_trans h1 h2⟩

/-! ## The Bool substring matchers agree with Mathlib's predicates -/

theorem charsIsPrefix_iff {n h : List Char} : charsIsPrefix n h = true ↔ n <+: h := by
  induction n generalizing h with
  | nil => simp [charsIsPrefix]
  | cons a as ih =>
    cases h with
    | nil => simp [charsIsPrefix]
    | cons b bs => simp [charsIsPrefix, List.cons_prefix_cons, ih]

theorem charsOccurs_iff {n h : List Char} : charsOccurs n h = true ↔ n <:+: h := by
  induction h with
  | nil => simp [charsOccurs, charsIsPrefix_iff]
  | cons b bs ih => simp [charsOccurs, charsIsPrefix_iff, ih, List.infix_cons_iff]

/-! ## `LIKE` versus case-insensitive substring containment -/

/-- A character list free of `LIKE` metacharacters. -/
def plainChars (p : List Char) : Prop := ∀ c ∈ p, c ≠ '%' ∧ c ≠ '_'

theorem noWildcards_iff {s : String} : noWildcards s = true ↔ plainChars s.toList := by
  simp [noWildcards, plainChars, List.all_eq_true]

theorem likeMatch_percent {ps hs : List Char} :
    likeMatch ('%' :: ps) hs = true ↔ ∃ t, t <:+ hs ∧ likeMatch ps t = true := by
  show (hs.tails.any fun t => likeMatch ps t) = true ↔ _
  rw [List.any_eq_true]
  constructor
  · rintro ⟨t, ht, hm⟩
    exact ⟨t, (List.mem_tails _ _).1 ht, hm⟩
  · rintro ⟨t, ht, hm⟩
    exact ⟨t, (List.mem_tails _ _).2 ht, hm⟩

theorem likeMatch_plain {ps : List Char} (hp : plainChars ps) :
    ∀ {hs : List Char},
      (likeMatch ps hs = true ↔ ps.map Char.toLower = hs.map Char.toLower) := by
  induction ps with
  | nil =>
    intro hs
    cases hs <;> simp [likeMatch]
  | cons p ps ih =>
    intro hs
    have hp1 := hp p (List.mem_cons_self p ps)
    have hps : plainChars ps := fun c hc => hp c (List.mem_cons_of_mem _ hc)
    cases hs with
    | nil => simp [likeMatch, hp1.1]
    | cons h hs =>
      simp only [likeMatch, if_neg hp1.1, Bool.and_eq_true, Bool.or_eq_true, beq_iff_eq,
        List.map_cons, List.cons.injEq, ih hps]
      constructor
      · rintro ⟨hc | hc, hrest⟩
        · exact absurd hc hp1.2
        · exact ⟨hc, hrest⟩
      · rintro ⟨hc, hrest⟩
        exact ⟨Or.inr hc, hrest⟩

theorem likeMatch_plain_percent {s : List Char} (hp : plainChars s) :
    ∀ {t : List Char},
      (likeMatch (s ++ ['%']) t = true ↔ (s.map Char.toLower) <+: (t.map Char.toLower)) := by
  induction s with
  | nil =>
    intro t
    simp only [List.nil_append, List.map_nil]
    rw [likeMatch_percent]
    constructor
    · intro _
      exact List.nil_prefix
    · intro _
      exact ⟨[], List.nil_suffix, rfl⟩
  | cons c cs ih =>
    intro t
    have hp1 := hp c (List.mem_cons_self c cs)
    have hps : plainChars cs := fun x hx => hp x (List.mem_cons_of_mem _ hx)
    cases t with
    | nil => simp [likeMatch, hp1.1]
    | cons d ds =>
      rw [List.cons_append]
      simp only [likeMatch, if_neg hp1.1, Bool.and_eq_true, Bool.or_eq_true,
        beq_iff_eq, List.map_cons, List.cons_prefix_cons]
      rw [ih hps]
      constructor
      · rintro ⟨hc | hc, hrest⟩
        · exact absurd hc hp1.2
        · exact ⟨hc, hrest⟩
      · rintro ⟨hc, hrest⟩
        exact ⟨Or.inr hc, hrest⟩

theorem likeMatch_pattern_iff {s : String} {hay : List Char} (hp : plainChars s.toList) :
    likeMatch (likePattern s) hay = true ↔
      (s.toList.map Char.toLower) <:+: (hay.map Char.toLower) := by
  unfold likePattern
  rw [likeMatch_percent]
  constructor
  · rintro ⟨t, hsuf, hm⟩
    exact List.infix_iff_prefix_suffix.2
      ⟨t.map Char.toLower, (likeMatch_plain_percent hp).1 hm, hsuf.map _⟩
  · intro hinf
    obtain ⟨t', hpre, hsuf⟩ := List.infix_iff_prefix_suffix.1 hinf
    obtain ⟨k, hk⟩ : ∃ k, t' = (hay.map Char.toLower).drop k :=
      ⟨_, List.suffix_iff_eq_drop.1 hsuf⟩
    refine ⟨hay.drop k, List.drop_suffix k hay, (likeMatch_plain_percent hp).2 ?_⟩
    rw [List.map_drop, ← hk]
    exact hpre

theorem containsCI_iff {hay needle : String} :
    containsCI hay needle = true ↔
      (needle.toList.map Char.toLower) <:+: (hay.toList.map Char.toLower) := by
  unfold containsCI
  exact charsOccurs_iff

/-- On wildcard-free search strings the percent-wrapped `LIKE` filter the
code runs agrees with the "case-insensitive substring" reading of the
spec. -/
theorem sqlLike_eq_containsCI {hay s : String} (hp : noWildcards s = true) :
    sqlLike hay (likePattern s) = containsCI hay s := by
  rw [Bool.eq_iff_iff]
  unfold sqlLike
  rw [likeMatch_pattern_iff (noWildcards_iff.1 hp), containsCI_iff]

/-! ## Query helpers -/

theorem query_entries_perm (start end_ : Option String) (project_ids : Option (List Nat))
    (text tags_like : Option String) (db : DB) :
    (query_entries start end_ project_ids text tags_like db).Perm
      ((db.entries.filter (entry_matches start end_ project_ids text tags_like)).map
        (entry_row db)) :=
  List.perm_insertionSort _ _

theorem mem_query_entries {start end_ : Option String} {project_ids : Option (List Nat)}
    {text tags_like : Option String} {db : DB} {r : QueryRow} :
    r ∈ query_entries start end_ project_ids text tags_like db ↔
      ∃ e ∈ db.entries,
        entry_matches start end_ project_ids text tags_like e = true ∧ entry_row db e = r := by
  rw [(query_entries_perm start end_ project_ids text tags_like db).mem_iff]
  simp [List.mem_filter, and_assoc]

/-! ## Claims -/

/-- C1 counterexample: on a database holding one entry, `query_entries`
with `project_ids` explicitly the empty list returns that entry — not
zero rows as claimed: `if project_ids:` is false on `[]`, so no `IN`
condition is added. -/
theorem C1_counterexample :
    query_entries none none (some []) none none
        (insert_entry "2024-01-02T03:04:05" "t" none "Coding" "" "" none "" "2024-01-02T03:04:06"
          DB.empty).2 ≠ [] := by
  decide

/-- C1 (amended): `query_entries` with `project_ids` explicitly set to the
empty list behaves exactly as with the filter omitted — the empty list is
treated as an absent filter, so with no other filters all rows are
returned (one output row per stored entry). -/
theorem C1_empty_project_filter (start end_ text tags_like : Option String) (db : DB) :
    query_entries start end_ (some []) text tags_like db =
        query_entries start end_ none text tags_like db ∧
      (query_entries none none none none none db).length = db.entries.length := by
  constructor
  · rfl
  · have hfilter : db.entries.filter (entry_matches none none none none none) = db.entries :=
      List.filter_eq_self.2 fun a _ => rfl
    calc (query_entries none none none none none db).length
        = ((db.entries.filter (entry_matches none none none none none)).map
            (entry_row db)).length :=
          (query_entries_perm none none none none none db).length_eq
      _ = db.entries.length := by rw [hfilter, List.length_map]

/-- C5 counterexample: `insert_entry` called with a zero duration stores
`0`, not null — the function body binds `duration_hours` verbatim into
the `INSERT`; no normalization happens in `insert_entry` itself. -/
theorem C5_counterexample :
    ((insert_entry "2024-01-01T00:00:00" "t" none "Coding" "" "" (some 0) "" "n"
        DB.empty).2.entries.map fun e => e.duration_hours) = [some 0] := by
  decide

/-- C5 (amended): `insert_entry` stores its `duration_hours` argument
unchanged; the zero-to-null normalization lives in the caller
`quick_capture`, which passes `float(duration) if duration else None`, so
an entry captured with a zero or absent duration is stored with a null
duration. -/
theorem C5_duration_normalized_by_caller (db : DB) (ts title : String)
    (project_id : Option Nat) (work_type tags path notes_md now : String) (d : ℚ) :
    ((insert_entry ts title project_id work_type tags path (quick_capture_duration d)
          notes_md now db).2.entries.map fun e => e.duration_hours) =
        (db.entries.map fun e => e.duration_hours) ++ [if d = 0 then none else some d] ∧
      quick_capture_duration 0 = none := by
  refine ⟨?_, rfl⟩
  unfold insert_entry quick_capture_duration
  simp

/-- C8: both exports are total on the empty row set: the CSV download is
the empty byte string (`b""`) and the markdown journal is the fixed
placeholder document. -/
theorem C8_empty_exports (pathLink : String → String) (showDur : ℚ → String) :
    entries_csv showDur [] = "" ∧
      export_markdown pathLink showDur [] = "# Worklog\n\n_No entries in the selected range._\n" :=
  ⟨rfl, rfl⟩

/-- C9: with foreign keys enforced on every connection, inserting an
attachment for a nonexistent entry id fails with the constraint error
(no state change), while for an existing entry id it succeeds and appends
exactly the new metadata row. -/
theorem C9_attachment_foreign_key (db : DB) (entry_id : Nat) (filename rel_path now : String) :
    ((¬ ∃ e ∈ db.entries, e.id = entry_id) →
        insert_attachment entry_id filename rel_path now db =
          .error "FOREIGN KEY constraint failed") ∧
      ((∃ e ∈ db.entries, e.id = entry_id) →
        ∃ db', insert_attachment entry_id filename rel_path now db = .ok db' ∧
          db'.attachments = db.attachments ++
            [{ id := db.nextAttachmentId, entry_id := entry_id, filename := filename,
               rel_path := rel_path, created_at := now }] ∧
          db'.entries = db.entries ∧ db'.projects = db.projects) := by
  constructor
  · intro hno
    have hany : db.entries.any (fun e => e.id == entry_id) = false := by
      rw [← Bool.not_eq_true, List.any_eq_true]
      simpa using hno
    unfold insert_attachment
    rw [hany]
    rfl
  · intro hyes
    have hany : db.entries.any (fun e => e.id == entry_id) = true := by
      rw [List.any_eq_true]
      simpa using hyes
    unfold insert_attachment
    rw [hany]
    exact ⟨_, rfl, rfl, rfl, rfl⟩

/-- C9 witness: on the example database, an unused entry id (7) is
rejected with the constraint error and the existing entry id (1)
succeeds. -/
theorem C9_attachment_foreign_key_witness :
    insert_attachment 7 "f.txt" "attachments/entry_7/f.txt" "n" atlasDB =
        .error "FOREIGN KEY constraint failed" ∧
      ∃ db', insert_attachment 1 "f.txt" "attachments/entry_1/f.txt" "n" atlasDB = .ok db' ∧
        db'.attachments = atlasDB.attachments ++
          [{ id := atlasDB.nextAttachmentId, entry_id := 1, filename := "f.txt",
             rel_path := "attachments/entry_1/f.txt", created_at := "n" }] ∧
        db'.entries = atlasDB.entries ∧ db'.projects = atlasDB.projects :=
  ⟨(C9_attachment_foreign_key atlasDB 7 "f.txt" "attachments/entry_7/f.txt" "n").1 (by decide),
   (C9_attachment_foreign_key atlasDB 1 "f.txt" "attachments/entry_1/f.txt" "n").2 (by decide)⟩

/-- C2: inserting a valid entry into an empty entries table and querying
with a date range containing its timestamp (and no other filters) returns
exactly one row whose stored fields equal the inserted values. -/
theorem C2_insert_then_query (db : DB) (hdb : db.entries = [])
    (ts title : String) (project_id : Option Nat) (work_type tags path : String)
    (duration_hours : Option ℚ) (notes_md : String) (now start end_ : String)
    (h1 : strLe (sqliteDate start) (sqliteDate ts) = true)
    (h2 : strLe (sqliteDate ts) (sqliteDate end_) = true) :
    ∃ r, query_entries (some start) (some end_) none none none
          (insert_entry ts title project_id work_type tags path duration_hours notes_md now
            db).2 = [r] ∧
      r.ts = ts ∧ r.title = title ∧ r.work_type = work_type ∧ r.tags = tags ∧
      r.path = path ∧ r.duration_hours = duration_hours ∧ r.notes_md = notes_md := by
  unfold insert_entry query_entries
  simp only [hdb, List.nil_append]
  have hmatch : entry_matches (some start) (some end_) none none none
      { id := db.nextEntryId, ts := ts, title := title, project_id := project_id,
        work_type := work_type, tags := tags, path := path,
        duration_hours := duration_hours, notes_md := notes_md, created_at := now } = true := by
    simp [entry_matches, h1, h2]
  rw [List.filter_cons_of_pos hmatch]
  exact ⟨_, rfl, rfl, rfl, rfl, rfl, rfl, rfl, rfl⟩

/-- C2 witness: a concrete calibration entry inserted into the fresh
database is found by a two-day range query. -/
theorem C2_insert_then_query_witness :
    strLe (sqliteDate "2024-01-01") (sqliteDate "2024-01-02T03:04:05") = true ∧
      ∃ r, query_entries (some "2024-01-01") (some "2024-01-03") none none none
            (insert_entry "2024-01-02T03:04:05" "Ran calibration" none "Experiment" "calib"
              "/home/u/atlas" (some (3 / 2)) "ok" "2024-01-02T03:04:06" DB.empty).2 = [r] ∧
        r.ts = "2024-01-02T03:04:05" ∧ r.title = "Ran calibration" ∧
        r.work_type = "Experiment" ∧ r.tags = "calib" ∧ r.path = "/home/u/atlas" ∧
        r.duration_hours = some (3 / 2) ∧ r.notes_md = "ok" :=
  ⟨by decide,
   C2_insert_then_query DB.empty rfl "2024-01-02T03:04:05" "Ran calibration" none "Experiment"
     "calib" "/home/u/atlas" (some (3 / 2)) "ok" "2024-01-02T03:04:06" "2024-01-01" "2024-01-03"
     (by decide) (by decide)⟩

/-- One upsert, assuming the `UNIQUE(name)` invariant (at most one row per
name): afterwards exactly one row carries `name` and its base path is the
given one. -/
theorem upsert_project_filter (name : String) (bp : Option String) (now : String) (db : DB)
    (huniq : (db.projects.filter fun p => p.name == name).length ≤ 1) :
    ∃ r, ((upsert_project name bp now db).projects.filter fun p => p.name == name) = [r] ∧
      r.name = name ∧ r.base_path = bp := by
  unfold upsert_project
  by_cases h : db.projects.any (fun p => p.name == name) = true
  · rw [if_pos h]
    have hne : (db.projects.filter fun p => p.name == name) ≠ [] := by
      rw [List.any_eq_true] at h
      obtain ⟨p, hp, hpn⟩ := h
      exact List.ne_nil_of_mem (List.mem_filter.2 ⟨hp, hpn⟩)
    have hlen : (db.projects.filter fun p => p.name == name).length = 1 := by
      have := List.length_pos.2 hne
      omega
    obtain ⟨x, hx⟩ := List.length_eq_one.1 hlen
    have hxname : x.name == name := by
      have : x ∈ db.projects.filter fun p => p.name == name := by
        rw [hx]
        exact List.mem_singleton_self x
      exact (List.mem_filter.1 this).2
    have hmapfilter :
        ((db.projects.map fun p =>
            if p.name == name then { p with base_path := bp } else p).filter
          fun p => p.name == name) =
        ((db.projects.filter fun p => p.name == name).map fun p =>
            if p.name == name then { p with base_path := bp } else p) := by
      rw [List.filter_map]
      congr 1
      apply List.filter_congr
      intro p _
      by_cases hp : p.name = name
      · simp [hp]
      · simp [hp]
    have hx' : x.name = name := eq_of_beq hxname
    refine ⟨{ x with base_path := bp }, ?_, ?_, rfl⟩
    · rw [hmapfilter, hx]
      simp [hx']
    · exact hx'
  · rw [if_neg h]
    have hnil : (db.projects.filter fun p => p.name == name) = [] := by
      rw [List.filter_eq_nil_iff]
      intro p hp
      rw [Bool.not_eq_true]
      by_contra hc
      exact h (List.any_eq_true.2 ⟨p, hp, by simpa using hc⟩)
    refine ⟨{ id := db.nextProjectId, name := name, base_path := bp, created_at := now },
      ?_, rfl, rfl⟩
    rw [List.filter_append, hnil, List.nil_append]
    simp

/-- C3: two upserts of the same name (first base path `a`, then `b`) leave
exactly one project row with that name, and its base path is `b` — the
name is the upsert key, attributes are last-write-wins. -/
theorem C3_upsert_last_write_wins (name : String) (a b : Option String) (now1 now2 : String)
    (db : DB) (huniq : (db.projects.filter fun p => p.name == name).length ≤ 1) :
    ∃ r, ((upsert_project name b now2 (upsert_project name a now1 db)).projects.filter
          fun p => p.name == name) = [r] ∧
      r.name = name ∧ r.base_path = b := by
  obtain ⟨r1, hr1, _, _⟩ := upsert_project_filter name a now1 db huniq
  exact upsert_project_filter name b now2 (upsert_project name a now1 db) (by rw [hr1]; simp)

/-- C3 witness: upserting "X" with `/a` then `/b` on the empty database
leaves one "X" row with base path `/b`. -/
theorem C3_upsert_last_write_wins_witness :
    ∃ r, ((upsert_project "X" (some "/b") "n2"
            (upsert_project "X" (some "/a") "n1" DB.empty)).projects.filter
          fun p => p.name == "X") = [r] ∧
      r.name = "X" ∧ r.base_path = some "/b" :=
  C3_upsert_last_write_wins "X" (some "/a") (some "/b") "n1" "n2" DB.empty (by decide)

/-- C10: upserting an existing name only rewrites the base path of that row:
every row keeps its id, name and creation timestamp, rows with other
names are untouched, and the entries and attachments tables are
unchanged. -/
theorem C10_upsert_frame (name : String) (bp : Option String) (now : String) (db : DB)
    (h : db.projects.any (fun p => p.name == name) = true) :
    (upsert_project name bp now db).entries = db.entries ∧
      (upsert_project name bp now db).attachments = db.attachments ∧
      (upsert_project name bp now db).projects.length = db.projects.length ∧
      ∀ i : Nat,
        ((upsert_project name bp now db).projects[i]?.map fun p => p.id) =
            (db.projects[i]?.map fun p => p.id) ∧
          ((upsert_project name bp now db).projects[i]?.map fun p => p.name) =
            (db.projects[i]?.map fun p => p.name) ∧
          ((upsert_project name bp now db).projects[i]?.map fun p => p.created_at) =
            (db.projects[i]?.map fun p => p.created_at) ∧
          ∀ p, db.projects[i]? = some p → p.name ≠ name →
            (upsert_project name bp now db).projects[i]? = some p := by
  unfold upsert_project
  rw [if_pos h]
  refine ⟨rfl, rfl, by simp, ?_⟩
  intro i
  rw [List.getElem?_map]
  cases hp : db.projects[i]? with
  | none => simp
  | some p =>
    by_cases hn : p.name = name
    · refine ⟨by simp [hn], by simp [hn], by simp [hn], ?_⟩
      intro q hq hqn
      cases hq
      exact absurd hn hqn
    · refine ⟨by simp [hn], by simp [hn], by simp [hn], ?_⟩
      intro q hq hqn
      cases hq
      simp [hn]

/-- C10 witness: on the example database, updating project "Atlas" keeps
its id, name and creation timestamp and the other tables. -/
theorem C10_upsert_frame_witness :
    (upsert_project "Atlas" (some "/new") "n" atlasDB).entries = atlasDB.entries ∧
      (upsert_project "Atlas" (some "/new") "n" atlasDB).attachments = atlasDB.attachments ∧
      (upsert_project "Atlas" (some "/new") "n" atlasDB).projects.length =
        atlasDB.projects.length ∧
      ∀ i : Nat,
        ((upsert_project "Atlas" (some "/new") "n" atlasDB).projects[i]?.map fun p => p.id) =
            (atlasDB.projects[i]?.map fun p => p.id) ∧
          ((upsert_project "Atlas" (some "/new") "n" atlasDB).projects[i]?.map
              fun p => p.name) = (atlasDB.projects[i]?.map fun p => p.name) ∧
          ((upsert_project "Atlas" (some "/new") "n" atlasDB).projects[i]?.map
              fun p => p.created_at) = (atlasDB.projects[i]?.map fun p => p.created_at) ∧
          ∀ p, atlasDB.projects[i]? = some p → p.name ≠ "Atlas" →
            (upsert_project "Atlas" (some "/new") "n" atlasDB).projects[i]? = some p :=
  C10_upsert_frame "Atlas" (some "/new") "n" atlasDB (by decide)

theorem containsCI_empty (hay : String) : containsCI hay "" = true :=
  containsCI_iff.2 (by simp [List.nil_infix])

/-- With only the text filter set, the `WHERE` clause of `query_entries`
reduces, for wildcard-free search strings, to case-insensitive substring
containment in title, notes or path (an empty search string is falsy in
Python, so it filters nothing — and the empty string is a substring of
everything, so the equation still holds). -/
theorem entry_matches_text_only {s : String} (hw : noWildcards s = true) (e : EntryRow) :
    entry_matches none none none (some s) none e =
      (containsCI e.title s || containsCI e.notes_md s || containsCI e.path s) := by
  by_cases hs : s = ""
  · subst hs
    simp [entry_matches, containsCI_empty]
  · simp [entry_matches, hs, sqlLike_eq_containsCI hw]

/-- C4 counterexample: the claim quantifies over every search string, but
the code passes the string into `LIKE`, whose metacharacters keep their
meaning: searching for `"%"` matches an entry none of whose fields
contains a percent sign. -/
theorem C4_counterexample :
    (query_entries none none none (some "%") none
        (insert_entry "2024-01-01T00:00:00" "abc" none "Coding" "" "" none "" "n"
          DB.empty).2).length = 1 ∧
      containsCI "abc" "%" = false ∧ containsCI "" "%" = false := by
  refine ⟨by decide, by decide, by decide⟩

/-- C4 (amended): for every search string free of the `LIKE` wildcards
`%` and `_`, an entry of a database with distinct entry ids appears in
the text-filtered query result if and only if its title, notes or path
contains the string as a case-insensitive substring. -/
theorem C4_text_filter (db : DB) (s : String) (hw : noWildcards s = true)
    (hids : (db.entries.map fun e => e.id).Nodup) (e : EntryRow) (he : e ∈ db.entries) :
    ((query_entries none none none (some s) none db).any fun r => r.id == e.id) = true ↔
      (containsCI e.title s || containsCI e.notes_md s || containsCI e.path s) = true := by
  rw [← entry_matches_text_only hw e, List.any_eq_true]
  constructor
  · rintro ⟨r, hr, hrid⟩
    obtain ⟨e', he', hm, hrow⟩ := mem_query_entries.1 hr
    have hid : e'.id = e.id := by
      have : (entry_row db e').id = r.id := by rw [hrow]
      rw [← this] at hrid
      exact eq_of_beq hrid
    have : e' = e := List.inj_on_of_nodup_map hids he' he hid
    rw [← this]
    exact hm
  · intro hm
    refine ⟨entry_row db e, mem_query_entries.2 ⟨e, he, hm, rfl⟩, ?_⟩
    simp [entry_row]

/-- C4 witness: on the example database, searching for "calib" finds the
calibration entry, matching substring containment in its title. -/
theorem C4_text_filter_witness :
    noWildcards "calib" = true ∧
      (((query_entries none none none (some "calib") none atlasDB).any
          fun r => r.id == (1 : Nat)) = true ↔
        (containsCI "Ran calibration" "calib" || containsCI "Passed" "calib" ||
          containsCI "/home/u/atlas/run1" "calib") = true) :=
  ⟨by decide,
   C4_text_filter atlasDB "calib" (by decide) (by decide)
     { id := 1, ts := "2025-10-10T09:30:00", title := "Ran calibration", project_id := some 1,
       work_type := "Experiment", tags := "calib,v2", path := "/home/u/atlas/run1",
       duration_hours := some 2, notes_md := "Passed",
       created_at := "2025-10-10T09:30:01" }
     (by decide)⟩

/-- C6: for every filter combination the query result is sorted by entry
timestamp descending, and every output row is the projection of a stored
entry whose `project` column resolves to the name of the referenced
project, defaulting to the empty string when the entry has no project. -/
theorem C6_order_and_project_resolution (start end_ : Option String)
    (project_ids : Option (List Nat)) (text tags_like : Option String) (db : DB) :
    (query_entries start end_ project_ids text tags_like db).Sorted tsDesc ∧
      ∀ r ∈ query_entries start end_ project_ids text tags_like db,
        ∃ e ∈ db.entries, r.id = e.id ∧
          r.project =
            (match e.project_id with
             | none => ""
             | some pid => (((db.projects.find? fun p => p.id == pid).map
                 fun p => p.name).getD "")) := by
  constructor
  · exact List.sorted_insertionSort tsDesc _
  · intro r hr
    obtain ⟨e, he, _, hrow⟩ := mem_query_entries.1 hr
    refine ⟨e, he, ?_, ?_⟩
    · rw [← hrow]
      rfl
    · rw [← hrow]
      show project_name_of db e.project_id = _
      cases e.project_id <;> rfl

/-- C6 witness: on the example database the single output row is sorted
trivially and resolves its project reference to "Atlas". -/
theorem C6_order_and_project_resolution_witness :
    (query_entries none none none none none atlasDB).Sorted tsDesc ∧
      ∃ e ∈ atlasDB.entries,
        (1 : Nat) = e.id ∧
          ("Atlas" : String) =
            (match e.project_id with
             | none => ""
             | some pid => (((atlasDB.projects.find? fun p => p.id == pid).map
                 fun p => p.name).getD "")) := by
  have h := C6_order_and_project_resolution none none none none none atlasDB
  refine ⟨h.1, ?_⟩
  have h2 := h.2
    { id := 1, ts := "2025-10-10T09:30:00", title := "Ran calibration", project := "Atlas",
      work_type := "Experiment", tags := "calib,v2", path := "/home/u/atlas/run1",
      duration_hours := some 2, notes_md := "Passed" }
    (by decide)
  exact h2

/-- C7: on a non-empty row set the markdown journal's date groups carry
strictly ascending distinct dates, each group is sorted ascending by
exact timestamp and holds exactly rows of its date, every input row lands
in some group, and at least one group exists. -/
theorem C7_markdown_groups_ordered (rows : List QueryRow) (hne : rows ≠ []) :
    ((markdown_groups rows).map Prod.fst).Pairwise (fun a b => dateAsc a b ∧ a ≠ b) ∧
      (∀ g ∈ markdown_groups rows, g.2.Sorted tsAsc ∧ ∀ r ∈ g.2, sqliteDate r.ts = g.1) ∧
      (∀ r ∈ rows, ∃ g ∈ markdown_groups rows, r ∈ g.2) ∧
      markdown_groups rows ≠ [] := by
  have hkeys : (markdown_groups rows).map Prod.fst = markdown_date_keys rows := by
    unfold markdown_groups
    rw [List.map_map]
    exact List.map_id _
  have hmem3 : ∀ r ∈ rows, ∃ g ∈ markdown_groups rows, r ∈ g.2 := by
    intro r hr
    have hd : sqliteDate r.ts ∈ markdown_date_keys rows := by
      unfold markdown_date_keys
      rw [(List.perm_insertionSort dateAsc _).mem_iff, List.mem_dedup]
      exact List.mem_map.2 ⟨r, hr, rfl⟩
    refine ⟨(sqliteDate r.ts,
        List.insertionSort tsAsc (rows.filter fun x => sqliteDate x.ts == sqliteDate r.ts)),
      List.mem_map.2 ⟨sqliteDate r.ts, hd, rfl⟩, ?_⟩
    show r ∈ List.insertionSort tsAsc _
    rw [(List.perm_insertionSort tsAsc _).mem_iff]
    exact List.mem_filter.2 ⟨hr, by simp⟩
  refine ⟨?_, ?_, hmem3, ?_⟩
  · rw [hkeys]
    have hsorted : (markdown_date_keys rows).Pairwise dateAsc :=
      List.sorted_insertionSort dateAsc _
    have hnodup : (markdown_date_keys rows).Nodup :=
      ((List.perm_insertionSort dateAsc _).symm.nodup (List.nodup_dedup _))
    exact hsorted.and hnodup
  · intro g hg
    obtain ⟨d, _, rfl⟩ := List.mem_map.1 hg
    refine ⟨List.sorted_insertionSort tsAsc _, ?_⟩
    intro r hrg
    rw [(List.perm_insertionSort tsAsc _).mem_iff] at hrg
    exact eq_of_beq (List.mem_filter.1 hrg).2
  · obtain ⟨r, hr⟩ := List.exists_mem_of_ne_nil rows hne
    obtain ⟨g, hg, _⟩ := hmem3 r hr
    exact List.ne_nil_of_mem hg

/-- C7 witness: a two-entry set spanning two different days yields two
date sections in ascending date order, entries within a day ordered by
time ascending. -/
theorem C7_markdown_groups_ordered_witness :
    (markdown_groups mdTwoDays).map Prod.fst = ["2024-01-01", "2024-01-02"] ∧
      (((markdown_groups mdTwoDays).map Prod.fst).Pairwise (fun a b => dateAsc a b ∧ a ≠ b) ∧
        (∀ g ∈ markdown_groups mdTwoDays, g.2.Sorted tsAsc ∧ ∀ r ∈ g.2, sqliteDate r.ts = g.1) ∧
        (∀ r ∈ mdTwoDays, ∃ g ∈ markdown_groups mdTwoDays, r ∈ g.2) ∧
        markdown_groups mdTwoDays ≠ []) :=
  ⟨by decide, C7_markdown_groups_ordered mdTwoDays (by decide)⟩

end Worklog
